import Mathlib

/-!
Verification development for the TPool repository: the asynchronous logging
subsystem (record buffer, file sink with size rotation, binary rendering of
integer blobs), the thread pool, the task abstraction and the task DAG.

Each definition is a shallow embedding of a function of the C++ sources,
with the file and line range of the embedded code noted next to it.
Machine integers are modelled as Nat (all the embedded quantities are
unsigned and no overflow is reachable at the sizes involved); byte payloads
are modelled as List Nat; fallible or undefined-behaviour paths are modelled
with Option and dedicated outcome inductives.

The file is laid out as definitions first, then the theorems about them.
-/

namespace TPool

/-! ## Association lists

Both maps of the task DAG are std::unordered_map instances.  They are
modelled as association lists with the update semantics of operator[]
(assign in place when the key exists, append otherwise), plus find, erase
and an in-place value adjustment (the ++inDegree pattern through a reference
into the map).  Iteration order is irrelevant to every claim below.
-/

def alistLookup {α : Type} (k : Nat) : List (Nat × α) → Option α
  | [] => none
  | (k', v) :: rest => if k' = k then some v else alistLookup k rest

def alistUpsert {α : Type} (k : Nat) (v : α) : List (Nat × α) → List (Nat × α)
  | [] => [(k, v)]
  | (k', v') :: rest =>
      if k' = k then (k', v) :: rest else (k', v') :: alistUpsert k v rest

def alistAdjust {α : Type} (k : Nat) (f : α → α) : List (Nat × α) → List (Nat × α)
  | [] => []
  | (k', v) :: rest =>
      if k' = k then (k', f v) :: rest else (k', v) :: alistAdjust k f rest

/-! ## Record buffer (LoggingOps)

Embeds src/src/LoggingOps.cpp together with the constants of
src/include/LoggingOps.hpp.  A record is a std::array of
bufferSize = 4097 chars (LoggingOps.hpp:44); the queue m_DataRecords holds
such records.  A record is determined by the chunk of payload bytes copied
into it (the remainder of the array is null padding, LoggingOps.cpp:101-110),
so records are modelled by their chunks.  Payloads are null-free byte lists,
on which the std::string copy at LoggingOps.cpp:117 is the identity.
-/

namespace LoggingOps

/-- bufferSize from LoggingOps.hpp:44 (4 KiB plus one byte for the terminator). -/
def bufferSize : Nat := 4097

/-- The while loop of LoggingOps::push (LoggingOps.cpp:118-123) followed by the
trailing push of the remainder (LoggingOps.cpp:124-127), written with an
explicit fuel so that it evaluates by structural recursion.  Each iteration of
the C++ loop runs while more than bufferSize bytes remain, copies the first
bufferSize - 1 bytes into a record and advances the cursor by bufferSize
bytes; a nonempty remainder is pushed as a final record.  Every iteration
consumes at least one byte, so fuel equal to the length of the data is always
sufficient; pushChunksLoop_rec below shows the fuelled version satisfies the
recurrence of the loop. -/
def pushChunksLoopAux : Nat → List Nat → List (List Nat)
  | 0, dataCopy => if dataCopy.isEmpty then [] else [dataCopy]
  | fuel + 1, dataCopy =>
    if dataCopy.length > bufferSize then
      dataCopy.take (bufferSize - 1) :: pushChunksLoopAux fuel (dataCopy.drop bufferSize)
    else if dataCopy.isEmpty then [] else [dataCopy]

def pushChunksLoop (dataCopy : List Nat) : List (List Nat) :=
  pushChunksLoopAux dataCopy.length dataCopy

/-- LoggingOps::push, restricted to the records it appends to m_DataRecords
(LoggingOps.cpp:96-133): an empty payload is a no-op, a payload of at most
bufferSize bytes becomes a single record, a longer payload goes through the
splitting loop. -/
def pushChunks (data : List Nat) : List (List Nat) :=
  if data.isEmpty then []
  else if data.length > bufferSize then pushChunksLoop data
  else [data]

/-- State of the record buffer: the queue m_DataRecords, the m_dataReady flag
and the m_shutAndExit flag (LoggingOps.hpp / LoggingOps.cpp:71-77). -/
structure BufState where
  records : List (List Nat)
  dataReady : Bool
  shutAndExit : Bool
  deriving DecidableEq, Repr

/-- LoggingOps::push on the buffer state (LoggingOps.cpp:96-142).  The second
component records whether the notification branch at lines 137-141 ran, i.e.
whether m_dataReady was raised and the watcher signalled: after appending the
records of the payload, line 137 tests m_DataRecords.size() == 256 and only
then sets m_dataReady and notifies. -/
def push (s : BufState) (data : List Nat) : BufState × Bool :=
  if data.isEmpty then (s, false)
  else
    ({ s with
        records := s.records ++ pushChunks data,
        dataReady := s.dataReady || ((s.records ++ pushChunks data).length == 256) },
      (s.records ++ pushChunks data).length == 256)

/-- The payload actually preserved by the splitting loop: for every full
chunk of bufferSize - 1 = 4096 bytes emitted, the byte that follows it is
consumed without being copied.  This is the amended form of the chunking
round-trip property. -/
def seamDroppedPayload (data : List Nat) : List Nat :=
  if data.length > bufferSize then
    data.take (bufferSize - 1) ++ seamDroppedPayload (data.drop bufferSize)
  else data
termination_by data.length
decreasing_by
  simp only [List.length_drop, bufferSize] at *
  omega

/-- A payload of 4098 bytes, one byte longer than a record: 4096 bytes of
value 1, then the bytes 2 and 3.  The byte 2 sits exactly at the first chunk
seam.  Every byte is nonzero, keeping the payload inside the null-free domain
on which the std::string copy at LoggingOps.cpp:117 is the identity. -/
def seamPayload : List Nat := List.replicate 4096 1 ++ [2, 3]

/-- A buffer holding 255 records, one below the notification threshold. -/
def almostFullBuf : BufState :=
  { records := List.replicate 255 [1], dataReady := false, shutAndExit := false }

/-- A buffer whose shutdown flag is already set and observed (the watcher has
exited); the queue is empty. -/
def shutdownBuf : BufState :=
  { records := [], dataReady := false, shutAndExit := true }

/-- std::bitset of width w constructed from n, rendered by to_string: w
characters, most significant bit first, bit i of the stored value at distance
i from the right end.  The write overloads for uint8_t, uint16_t, uint32_t
and uint64_t (LoggingOps.cpp:249-267) push exactly this text. -/
def bitsetToString : Nat → Nat → List Char
  | 0, _ => []
  | w + 1, n => (if n / 2 ^ w % 2 = 1 then '1' else '0') :: bitsetToString w n

/-- LoggingOps::write on an unsigned integer of width w bits
(LoggingOps.cpp:249-267): the text handed to push. -/
def writeUInt (w n : Nat) : List Char := bitsetToString w n

/-- One step of a big-endian bit-string parse. -/
def parseStep (acc : Nat) (c : Char) : Nat := 2 * acc + (if c = '1' then 1 else 0)

/-- Big-endian interpretation of a bit string, used to state the round-trip. -/
def parseBitsBE (s : List Char) : Nat := s.foldl parseStep 0

/-- The byte sequence of a text, as handed to the record buffer. -/
def charBytes (s : List Char) : List Nat := s.map Char.toNat

end LoggingOps

/-! ## Clock timestamp rendering

FileOps.cpp:491-492 renders the rotation timestamp with
Clock::getLocalTimeStr and the fixed strftime format string of day, month,
year, underscore, hour, minute, second.  The embedding renders a broken-down
local time with the zero padding strftime applies to each two-digit field;
years between 1000 and 9999 render as their four digits. -/

structure DateTime where
  day : Nat
  month : Nat
  year : Nat
  hour : Nat
  minute : Nat
  second : Nat
  deriving DecidableEq, Repr

def pad2 (n : Nat) : String := if n < 10 then "0" ++ toString n else toString n

/-- strftime with the format used at FileOps.cpp:492: day-month-year order,
then an underscore, then hour-minute-second. -/
def strftimeDMY (t : DateTime) : String :=
  pad2 t.day ++ pad2 t.month ++ toString t.year ++ "_" ++
    pad2 t.hour ++ pad2 t.minute ++ pad2 t.second

/-! ## File sink (FileOps)

Embeds FileOps::writeDataTo (src/src/FileOps.cpp:460-514).  The on-disk state
is reduced to what the rotation decision and effects read and write: whether
the active file exists, its size after the flush at line 486, and the names
of the rotated files.  File-system primitives (createFile, renameFile) are
modelled as succeeding; their failure paths feed the exception ledger and are
outside this claim.  The records of the payload are returned separately: the
code pushes them into the record buffer (line 470 and 507) after the rotation
decision, and they reach the disk only when the watcher drains the buffer. -/

namespace FileOps

structure Config where
  maxFileSize : Nat
  stem : String
  ext : String
  deriving DecidableEq, Repr

structure SinkState where
  activeExists : Bool
  activeSize : Nat
  rotated : List String
  deriving DecidableEq, Repr

/-- The rotation name built at FileOps.cpp:493-496: the file name up to the
first occurrence of the extension (the stem, for names of the form
stem ++ ext), an underscore, the local timestamp, then the extension. -/
def rotatedFileName (cfg : Config) (t : DateTime) : String :=
  cfg.stem ++ "_" ++ strftimeDMY t ++ cfg.ext

/-- Modelled from the claim wording only, for comparison: the rotation name
with the timestamp in year-month-day order, as the claim asserts. -/
def rotatedFileNameClaimYMD (cfg : Config) (t : DateTime) : String :=
  cfg.stem ++ "_" ++
    (toString t.year ++ pad2 t.month ++ pad2 t.day ++ "_" ++
      pad2 t.hour ++ pad2 t.minute ++ pad2 t.second) ++ cfg.ext

/-- FileOps::writeDataTo (FileOps.cpp:460-514): an empty payload returns at
once; a missing active file is created and the payload pushed; otherwise,
when the flushed on-disk size plus the payload size reaches maxFileSize, the
active file is renamed to the timestamped name and a fresh empty file is
created at the original path before the payload is pushed. -/
def writeDataTo (cfg : Config) (t : DateTime) (st : SinkState) (data : List Nat) :
    SinkState × List (List Nat) :=
  if data.isEmpty then (st, [])
  else if st.activeExists = false then
    ({ st with activeExists := true, activeSize := 0 }, LoggingOps.pushChunks data)
  else if st.activeSize + data.length ≥ cfg.maxFileSize then
    ({ activeExists := true, activeSize := 0,
       rotated := st.rotated ++ [rotatedFileName cfg t] }, LoggingOps.pushChunks data)
  else (st, LoggingOps.pushChunks data)

/-- Sink configuration for the rotation scenario: 1024-byte ceiling. -/
def logCfg : Config := { maxFileSize := 1024, stem := "log", ext := ".txt" }

/-- An active file of 1000 bytes, no rotations yet. -/
def fullSink : SinkState := { activeExists := true, activeSize := 1000, rotated := [] }

end FileOps

/-- A concrete local time: 11 October 2026, 12:34:56. -/
def rotDate : DateTime :=
  { day := 11, month := 10, year := 2026, hour := 12, minute := 34, second := 56 }

/-! ## Thread pool (ThreadPool)

Embeds the sequential effect of the ThreadPool members of
src/include/ThreadPool.hpp on the observable pool state.  The worker threads
are represented by their count; the queue by its length; m_taskCntTotal is
the outstanding counter (queued plus running). -/

namespace ThreadPool

structure PoolState where
  poolSize : Nat
  workers : Nat
  queued : Nat
  taskCntTotal : Nat
  taskRunning : Bool
  pause : Bool
  deriving DecidableEq, Repr

/-- Exit condition of the spin loop in waitForTaskCompletion
(ThreadPool.hpp:253-269): without pause both queued and running tasks must
have drained (getTotalTaskCnt() == 0); under pause only the running count
getTaskRunningCnt() = m_taskCntTotal - queued must be zero. -/
def waitExit (s : PoolState) : Bool :=
  if s.pause then s.taskCntTotal - s.queued == 0 else s.taskCntTotal == 0

/-- ThreadPool::reset (ThreadPool.hpp:104-116), applied to a state on which
waitForTaskCompletion has already returned (its exit condition is a
hypothesis of the theorems below; the spin wait itself changes no state).
The pause flag is saved at line 107 and restored at line 114, the workers are
stopped and joined, the pool size replaced and the new workers spawned.  The
LOG_ASSERT at line 112 terminates the process when the new size is zero,
modelled by none.  The queue and m_taskCntTotal are never touched. -/
def reset (s : PoolState) (newPoolSize : Nat) : Option PoolState :=
  if newPoolSize = 0 then none
  else
    some { s with poolSize := newPoolSize, workers := newPoolSize, taskRunning := true }

/-- Outcome of ThreadPool::createThreads (ThreadPool.hpp:277-291): either the
workers were spawned, or the LOG_ASSERT_MSG at line 289 fired, which logs the
assertion record and terminates the process through std::exit(EXIT_FAILURE)
(LogHelper.hpp:443-475).  The payload counts the workers spawned. -/
inductive CreateOutcome
  | ok (spawned : Nat)
  | assertionFailure (spawned : Nat)
  deriving DecidableEq, Repr

/-- ThreadPool::createThreads (ThreadPool.hpp:277-291): when m_poolSize is
nonzero the loop at lines 284-285 spawns m_poolSize workers; when it is zero
no thread is spawned and the assertion path runs. -/
def createThreads (poolSize : Nat) : CreateOutcome :=
  if poolSize ≠ 0 then CreateOutcome.ok poolSize else CreateOutcome.assertionFailure 0

/-- The ThreadPool constructor taking a pool size (ThreadPool.hpp:71-79):
initializes the counters and flags, then calls createThreads. -/
def construct (poolSize : Nat) : CreateOutcome := createThreads poolSize

/-- A paused pool with three queued tasks and none running: its
waitForTaskCompletion exit condition holds with a nonzero queue. -/
def pausedPool : PoolState :=
  { poolSize := 4, workers := 4, queued := 3, taskCntTotal := 3,
    taskRunning := true, pause := true }

/-- A quiescent unpaused pool. -/
def quietPool : PoolState :=
  { poolSize := 4, workers := 4, queued := 0, taskCntTotal := 0,
    taskRunning := true, pause := false }

end ThreadPool

/-! ## Task

Embeds the Task class of src/include/Task.hpp.  std::any is modelled by
ErasedValue (empty or a held value, payload abstracted to Nat).  The
packaged call installed by submit is modelled by the erased value its pure
callable produces: the wrapper at Task.hpp:151-163 yields an empty erased
value for a void callable and the erased result otherwise.  A
default-constructed task and a moved-from task (Task.hpp:72-79) both have no
binding and an invalid future. -/

inductive ErasedValue
  | empty
  | val (v : Nat)
  deriving DecidableEq, Repr

structure Task where
  binding : Option ErasedValue
  invocations : Nat
  futureConsumed : Bool
  deriving DecidableEq, Repr

/-- Task::submit (Task.hpp:141-168): installs the packaged wrapper, a fresh
future for it and a fresh identifier; the new packaged task has not been
invoked and its future is not consumed. -/
def Task.submit (t : Task) (outcome : ErasedValue) : Task :=
  { t with binding := some outcome, invocations := 0, futureConsumed := false }

/-- Task::run (Task.hpp:179-190): when m_task.valid(), invoke the packaged
task once and take the value out of the future; otherwise return an empty
erased value and leave the task untouched. -/
def Task.run (t : Task) : ErasedValue × Task :=
  match t.binding with
  | none => (ErasedValue.empty, t)
  | some v => (v, { t with invocations := t.invocations + 1, futureConsumed := true })

/-! ## Task DAG (TDAG)

Embeds src/src/TaskDAG.cpp and the two maps of src/include/TaskDAG.hpp:10-27.
m_taskIdMap maps an identifier to a pair of the task pointer and its
in-degree; the pointer plays no role in the claims, so the map carries the
in-degree alone.  m_taskGraph maps an identifier to its dependency
identifiers.  m_task, the task installed by the last inserting addTask, is
represented by its identifier; dereferencing it while null, and dereferencing
a find result equal to end(), are undefined behaviour, modelled by none and
the dedicated ub outcomes. -/

namespace TDAG

structure DagState where
  taskIdMap : List (Nat × Nat)
  taskGraph : List (Nat × List Nat)
  current : Option Nat
  deriving DecidableEq, Repr

def emptyDag : DagState := { taskIdMap := [], taskGraph := [], current := none }

/-- TDAG::addTask (TaskDAG.cpp:5-21) on the identifier of the inserted task:
when the identifier is not yet a key of m_taskIdMap, the task is stored in
m_task, inserted into m_taskIdMap with in-degree 0 and into m_taskGraph with
an empty dependency list; otherwise nothing changes. -/
def addTask (id : Nat) (s : DagState) : DagState :=
  if (alistLookup id s.taskIdMap).isSome then s
  else
    { taskIdMap := alistUpsert id 0 s.taskIdMap,
      taskGraph := alistUpsert id [] s.taskGraph,
      current := some id }

/-- TDAG::addDependency (TaskDAG.cpp:23-54).  The parent is m_task, the last
task installed by addTask; dereferencing it while null (line 26) is undefined
behaviour, modelled by none, as is the unchecked dereference of the
m_taskGraph find result (lines 30-31).  When the dependency identifier is not
on the parent dependency list, the dependency is inserted into m_taskIdMap
with in-degree 0, appended to the list, and the parent in-degree is
incremented; m_taskGraph gains no entry for the dependency. -/
def addDependency (depId : Nat) (s : DagState) : Option DagState :=
  match s.current with
  | none => none
  | some parent =>
    match alistLookup parent s.taskIdMap with
    | none => some s
    | some _ =>
      match alistLookup parent s.taskGraph with
      | none => none
      | some depVec =>
        if depId ∈ depVec then some s
        else
          some { taskIdMap := alistAdjust parent (fun d => d + 1)
                    (alistUpsert depId 0 s.taskIdMap),
                 taskGraph := alistUpsert parent (depVec ++ [depId]) s.taskGraph,
                 current := s.current }

/-- The operations of claim C10: addTask and addDependency, identified by the
identifier of the task they receive. -/
inductive DagOp
  | addTask (id : Nat)
  | addDep (id : Nat)
  deriving DecidableEq, Repr

def runOp (s : DagState) : DagOp → Option DagState
  | DagOp.addTask id => some (addTask id s)
  | DagOp.addDep id => addDependency id s

def runOps : DagState → List DagOp → Option DagState
  | s, [] => some s
  | s, op :: rest =>
    match runOp s op with
    | none => none
    | some s' => runOps s' rest

/-- Invariant bundle of the DAG state relative to a predicate T
overapproximating the identifiers inserted by addTask: m_task is an addTask
identifier present in both maps; every m_taskGraph key is an addTask
identifier; every identifier on a dependency list is a m_taskIdMap key; and
every m_taskIdMap entry outside T has in-degree 0. -/
def DagInv (T : Nat → Prop) (s : DagState) : Prop :=
  (∀ c, s.current = some c →
      T c ∧ (alistLookup c s.taskIdMap).isSome ∧ (alistLookup c s.taskGraph).isSome) ∧
  (∀ k, (alistLookup k s.taskGraph).isSome → T k) ∧
  (∀ k vec, alistLookup k s.taskGraph = some vec →
      ∀ d ∈ vec, (alistLookup d s.taskIdMap).isSome) ∧
  (∀ k v, alistLookup k s.taskIdMap = some v → ¬ T k → v = 0)

end TDAG

end TPool

/-! # Theorems -/

namespace TPool

/-! ## Association list lemmas -/

theorem alistLookup_upsert {α : Type} (j k : Nat) (v : α) (m : List (Nat × α)) :
    alistLookup j (alistUpsert k v m) = if k = j then some v else alistLookup j m := by
  induction m with
  | nil =>
    by_cases h : k = j <;> simp [alistUpsert, alistLookup, h]
  | cons hd tl ih =>
    obtain ⟨k', v'⟩ := hd
    by_cases h1 : k' = k
    · subst h1
      by_cases h2 : k' = j <;> simp [alistUpsert, alistLookup, h2]
    · by_cases h2 : k' = j
      · subst h2
        have : ¬ k = k' := fun h => h1 h.symm
        simp [alistUpsert, alistLookup, h1, this]
      · simp [alistUpsert, alistLookup, h1, h2, ih]

theorem alistLookup_adjust {α : Type} (j k : Nat) (f : α → α) (m : List (Nat × α)) :
    alistLookup j (alistAdjust k f m) =
      if k = j then (alistLookup j m).map f else alistLookup j m := by
  induction m with
  | nil => by_cases h : k = j <;> simp [alistAdjust, alistLookup, h]
  | cons hd tl ih =>
    obtain ⟨k', v'⟩ := hd
    by_cases h1 : k' = k
    · subst h1
      by_cases h2 : k' = j <;> simp [alistAdjust, alistLookup, h2]
    · by_cases h2 : k' = j
      · subst h2
        have : ¬ k = k' := fun h => h1 h.symm
        simp [alistAdjust, alistLookup, h1, this]
      · simp [alistAdjust, alistLookup, h1, h2, ih]

theorem alistLookup_isSome_upsert {α : Type} (j k : Nat) (v : α) (m : List (Nat × α))
    (h : (alistLookup j m).isSome) : (alistLookup j (alistUpsert k v m)).isSome := by
  rw [alistLookup_upsert]
  by_cases hk : k = j
  · rw [if_pos hk]
    rfl
  · rw [if_neg hk]
    exact h

theorem alistLookup_isSome_adjust {α : Type} (j k : Nat) (f : α → α) (m : List (Nat × α))
    (h : (alistLookup j m).isSome) : (alistLookup j (alistAdjust k f m)).isSome := by
  rw [alistLookup_adjust]
  by_cases hk : k = j
  · rw [if_pos hk]
    rcases Option.isSome_iff_exists.mp h with ⟨v, hv⟩
    simp [hv]
  · rw [if_neg hk]
    exact h

/-! ## Record buffer lemmas -/

namespace LoggingOps

theorem pushChunksLoopAux_fuel (f1 : Nat) :
    ∀ (f2 : Nat) (d : List Nat), d.length ≤ f1 → d.length ≤ f2 →
      pushChunksLoopAux f1 d = pushChunksLoopAux f2 d := by
  induction f1 with
  | zero =>
    intro f2 d h1 _
    have hnil : d = [] := List.length_eq_zero.mp (Nat.le_zero.mp h1)
    subst hnil
    cases f2 <;> simp [pushChunksLoopAux, bufferSize]
  | succ f1 ih =>
    intro f2 d h1 h2
    cases f2 with
    | zero =>
      have hnil : d = [] := List.length_eq_zero.mp (Nat.le_zero.mp h2)
      subst hnil
      simp [pushChunksLoopAux, bufferSize]
    | succ f2 =>
      show pushChunksLoopAux (f1 + 1) d = pushChunksLoopAux (f2 + 1) d
      rw [pushChunksLoopAux, pushChunksLoopAux]
      by_cases hgt : d.length > bufferSize
      · rw [if_pos hgt, if_pos hgt,
          ih f2 (d.drop bufferSize)
            (by simp only [List.length_drop, bufferSize] at *; omega)
            (by simp only [List.length_drop, bufferSize] at *; omega)]
      · rw [if_neg hgt, if_neg hgt]

/-- The fuelled loop satisfies the defining recurrence of the C++ while loop. -/
theorem pushChunksLoop_rec (dataCopy : List Nat) :
    pushChunksLoop dataCopy =
      if dataCopy.length > bufferSize then
        dataCopy.take (bufferSize - 1) :: pushChunksLoop (dataCopy.drop bufferSize)
      else if dataCopy.isEmpty then [] else [dataCopy] := by
  by_cases hgt : dataCopy.length > bufferSize
  · rw [if_pos hgt]
    unfold pushChunksLoop
    obtain ⟨n, hn⟩ : ∃ n, dataCopy.length = n + 1 :=
      ⟨dataCopy.length - 1, by simp only [bufferSize] at hgt; omega⟩
    rw [hn, pushChunksLoopAux, if_pos (hn ▸ hgt)]
    rw [pushChunksLoopAux_fuel n (dataCopy.drop bufferSize).length (dataCopy.drop bufferSize)
      (by simp only [List.length_drop, bufferSize] at *; omega) (Nat.le_refl _)]
  · rw [if_neg hgt]
    unfold pushChunksLoop
    cases hl : dataCopy.length with
    | zero => rw [pushChunksLoopAux]
    | succ n => rw [pushChunksLoopAux, if_neg (hl ▸ hgt)]

theorem pushChunksLoop_join_bounded :
    ∀ (n : Nat) (data : List Nat), data.length ≤ n →
      (pushChunksLoop data).flatten = seamDroppedPayload data := by
  intro n
  induction n with
  | zero =>
    intro data hlen
    have hnil : data = [] := List.length_eq_zero.mp (Nat.le_zero.mp hlen)
    subst hnil
    rw [pushChunksLoop_rec, seamDroppedPayload.eq_def]
    simp
  | succ n ih =>
    intro data hlen
    by_cases hgt : data.length > bufferSize
    · rw [pushChunksLoop_rec, seamDroppedPayload.eq_def, if_pos hgt, if_pos hgt,
        List.flatten_cons]
      rw [ih (data.drop bufferSize)
        (by simp only [List.length_drop, bufferSize] at *; omega)]
    · rw [pushChunksLoop_rec, seamDroppedPayload.eq_def, if_neg hgt, if_neg hgt]
      by_cases hemp : data.isEmpty
      · simp [if_pos hemp, List.isEmpty_iff.mp hemp]
      · have hne : data ≠ [] := fun h => hemp (by simp [h])
        simp [hne]

theorem pushChunksLoop_join (data : List Nat) :
    (pushChunksLoop data).flatten = seamDroppedPayload data :=
  pushChunksLoop_join_bounded data.length data (Nat.le_refl _)

theorem seamPayload_length : seamPayload.length = 4098 := by
  rw [seamPayload, List.length_append, List.length_replicate]
  rfl

theorem seamPayload_isEmpty : seamPayload.isEmpty = false := by
  rw [seamPayload]
  rfl

/-- Evaluation of the splitting on seamPayload: the first record carries the
4096 bytes of value 1, the byte 2 at index 4096 is consumed without being
copied, and the final record carries only the byte 3. -/
theorem pushChunks_seamPayload :
    pushChunks seamPayload = [List.replicate 4096 1, [3]] := by
  have hgt : seamPayload.length > bufferSize := by
    rw [seamPayload_length]
    decide
  rw [pushChunks, seamPayload_isEmpty, if_neg Bool.false_ne_true, if_pos hgt,
    pushChunksLoop_rec, if_pos hgt]
  have htake : seamPayload.take (bufferSize - 1) = List.replicate 4096 1 := by
    rw [seamPayload, show bufferSize - 1 = 4096 from rfl]
    exact List.take_left' (List.length_replicate 4096 1)
  have hdrop : seamPayload.drop bufferSize = [3] := by
    rw [seamPayload, show bufferSize = 4096 + 1 from rfl, ← List.drop_drop,
      List.drop_left' (List.length_replicate 4096 1)]
    rfl
  rw [htake, hdrop, pushChunksLoop_rec]
  rw [if_neg (by decide : ¬ ([3] : List Nat).length > bufferSize)]
  rfl

end LoggingOps

/-! ## Claim C1 -/

/-- C1, counterexample.  The claim states that for every payload pushed into
the record buffer the concatenation of the successive records produced by
push equals the original payload.  The 4098-byte payload seamPayload refutes
it: the byte at index 4096 (value 2) is dropped between the two records. -/
theorem C1_counterexample :
    (LoggingOps.pushChunks LoggingOps.seamPayload).flatten ≠ LoggingOps.seamPayload := by
  rw [LoggingOps.pushChunks_seamPayload]
  intro h
  have hlen := congrArg List.length h
  rw [LoggingOps.seamPayload_length, List.flatten_cons, List.flatten_cons, List.flatten_nil,
    List.append_nil, List.length_append, List.length_replicate, List.length_cons,
    List.length_nil] at hlen
  omega

/-- C1, amended.  The concatenation of the records produced by push equals
the payload with the byte following each full 4096-byte chunk removed
(seamDroppedPayload); it equals the payload itself exactly when the payload
fits in one record, i.e. has at most 4097 bytes. -/
theorem C1_chunking_amended (data : List Nat) :
    (LoggingOps.pushChunks data).flatten = LoggingOps.seamDroppedPayload data ∧
    (data.length ≤ LoggingOps.bufferSize → (LoggingOps.pushChunks data).flatten = data) := by
  constructor
  · rw [LoggingOps.pushChunks]
    by_cases hemp : data.isEmpty
    · have hnil : data = [] := List.isEmpty_iff.mp hemp
      subst hnil
      rw [if_pos hemp, LoggingOps.seamDroppedPayload.eq_def]
      simp
    · rw [if_neg hemp]
      by_cases hgt : data.length > LoggingOps.bufferSize
      · rw [if_pos hgt]
        exact LoggingOps.pushChunksLoop_join data
      · rw [if_neg hgt, LoggingOps.seamDroppedPayload.eq_def, if_neg hgt]
        simp
  · intro hle
    rw [LoggingOps.pushChunks]
    by_cases hemp : data.isEmpty
    · have hnil : data = [] := List.isEmpty_iff.mp hemp
      subst hnil
      rw [if_pos hemp]
      rfl
    · rw [if_neg hemp, if_neg (Nat.not_lt.mpr hle)]
      simp

/-- C1, witness for the amended theorem at the 40-byte payload 0,...,39. -/
theorem C1_chunking_amended_witness :
    (LoggingOps.pushChunks (List.range 40)).flatten = List.range 40 :=
  (C1_chunking_amended (List.range 40)).2 (by decide)

/-! ## Claim C2 -/

/-- C2, counterexample.  The claim states that after the shutdown flag has
been set and observed, a push enqueues nothing and leaves the buffer state
unchanged.  On shutdownBuf (shutdown flag set, empty queue) a push of the
one-byte payload 7 enqueues a record: push never consults m_shutAndExit
(LoggingOps.cpp:96-142 has no check of the flag). -/
theorem C2_counterexample :
    LoggingOps.shutdownBuf.shutAndExit = true ∧
    (LoggingOps.push LoggingOps.shutdownBuf [7]).1.records ≠
      LoggingOps.shutdownBuf.records := by
  decide

/-- C2, amended.  push ignores the shutdown flag entirely: a push after
shutdown enqueues exactly the records it would enqueue before shutdown, and
it never modifies the flag.  The records of such a push are dropped only in
the sense that the watcher has already exited and never writes them. -/
theorem C2_push_after_shutdown_amended (s : LoggingOps.BufState) (data : List Nat) :
    (LoggingOps.push { s with shutAndExit := true } data).1.records =
      (LoggingOps.push { s with shutAndExit := false } data).1.records ∧
    (LoggingOps.push s data).1.shutAndExit = s.shutAndExit := by
  rw [LoggingOps.push, LoggingOps.push, LoggingOps.push]
  by_cases hemp : data.isEmpty <;> simp [hemp]

/-! ## Claim C3 -/

/-- C3, counterexample.  The claim states that any push bringing the buffer
length to at least 256 raises the ready flag and signals the watcher,
including multi-chunk pushes that jump from below 256 to above it.  Starting
from 255 records, pushing the two-chunk payload seamPayload brings the length
to 257 and the notification branch does not run: LoggingOps.cpp:137 tests
size() == 256 exactly. -/
theorem C3_counterexample :
    LoggingOps.almostFullBuf.records.length = 255 ∧
    (LoggingOps.push LoggingOps.almostFullBuf LoggingOps.seamPayload).1.records.length = 257 ∧
    (LoggingOps.push LoggingOps.almostFullBuf LoggingOps.seamPayload).2 = false ∧
    (LoggingOps.push LoggingOps.almostFullBuf LoggingOps.seamPayload).1.dataReady = false := by
  have h255 : LoggingOps.almostFullBuf.records.length = 255 := by
    rw [show LoggingOps.almostFullBuf.records = List.replicate 255 [1] from rfl,
      List.length_replicate]
  have hlen :
      (LoggingOps.almostFullBuf.records ++ LoggingOps.pushChunks LoggingOps.seamPayload).length
        = 257 := by
    rw [List.length_append, h255, LoggingOps.pushChunks_seamPayload]
    rfl
  have hhit :
      ((LoggingOps.almostFullBuf.records ++
          LoggingOps.pushChunks LoggingOps.seamPayload).length == 256) = false := by
    rw [hlen]
    rfl
  refine ⟨h255, ?_, ?_, ?_⟩ <;>
      rw [LoggingOps.push, LoggingOps.seamPayload_isEmpty, if_neg Bool.false_ne_true]
  · exact hlen
  · exact hhit
  · rw [show LoggingOps.almostFullBuf.dataReady = false from rfl, hhit]
    rfl

/-- C3, amended.  The ready flag is raised and the watcher signalled exactly
when the queue length after the push equals 256; a push that jumps the length
from below 256 straight past it does not signal. -/
theorem C3_notify_threshold_amended (s : LoggingOps.BufState) (data : List Nat) :
    (LoggingOps.push s data).2 = true ↔
      data.isEmpty = false ∧
        s.records.length + (LoggingOps.pushChunks data).length = 256 := by
  rw [LoggingOps.push]
  by_cases hemp : data.isEmpty <;> simp [hemp]

/-! ## Binary rendering lemmas -/

namespace LoggingOps

theorem bitsetToString_length (w n : Nat) : (bitsetToString w n).length = w := by
  induction w with
  | zero => rfl
  | succ w ih => rw [bitsetToString]; simp [ih]

theorem foldl_parseStep_shift (s : List Char) :
    ∀ a : Nat, s.foldl parseStep a = a * 2 ^ s.length + s.foldl parseStep 0 := by
  induction s with
  | nil => intro a; simp
  | cons c s ih =>
    intro a
    rw [List.foldl_cons, List.foldl_cons, ih (parseStep a c), ih (parseStep 0 c),
      List.length_cons, pow_succ]
    simp only [parseStep]
    ring

theorem mod_two_pow_succ (n w : Nat) :
    n % 2 ^ (w + 1) = n / 2 ^ w % 2 * 2 ^ w + n % 2 ^ w := by
  have h1 := Nat.div_add_mod (n % (2 ^ w * 2)) (2 ^ w)
  rw [Nat.mod_mul_right_div_self, Nat.mod_mul_right_mod] at h1
  rw [pow_succ]
  calc n % (2 ^ w * 2) = 2 ^ w * (n / 2 ^ w % 2) + n % 2 ^ w := h1.symm
    _ = n / 2 ^ w % 2 * 2 ^ w + n % 2 ^ w := by rw [Nat.mul_comm]

theorem parseBitsBE_bitsetToString (w n : Nat) :
    parseBitsBE (bitsetToString w n) = n % 2 ^ w := by
  induction w with
  | zero => simp [parseBitsBE, bitsetToString, Nat.mod_one]
  | succ w ih =>
    rw [bitsetToString, parseBitsBE, List.foldl_cons, foldl_parseStep_shift,
      bitsetToString_length]
    have hb : parseStep 0 (if n / 2 ^ w % 2 = 1 then '1' else '0') = n / 2 ^ w % 2 := by
      rcases Nat.mod_two_eq_zero_or_one (n / 2 ^ w) with h | h <;> simp [parseStep, h]
    rw [hb, show (bitsetToString w n).foldl parseStep 0 = parseBitsBE (bitsetToString w n)
      from rfl, ih, mod_two_pow_succ]

end LoggingOps

/-! ## Claim C7 -/

/-- C7 (confirmed).  For every unsigned integer of width w in 8, 16, 32 or 64
bits, the text pushed by write is its big-endian bit-string of exactly w
characters, it parses back to the original integer under the big-endian
interpretation, and it is pushed as a single record. -/
theorem C7_binary_roundtrip (w n : Nat)
    (hw : w = 8 ∨ w = 16 ∨ w = 32 ∨ w = 64) (hn : n < 2 ^ w) :
    (LoggingOps.writeUInt w n).length = w ∧
    LoggingOps.parseBitsBE (LoggingOps.writeUInt w n) = n ∧
    LoggingOps.pushChunks (LoggingOps.charBytes (LoggingOps.writeUInt w n)) =
      [LoggingOps.charBytes (LoggingOps.writeUInt w n)] := by
  have hlen : (LoggingOps.charBytes (LoggingOps.writeUInt w n)).length = w := by
    rw [LoggingOps.charBytes, List.length_map, LoggingOps.writeUInt,
      LoggingOps.bitsetToString_length]
  have hw0 : 0 < w := by rcases hw with h | h | h | h <;> omega
  refine ⟨LoggingOps.bitsetToString_length w n, ?_, ?_⟩
  · rw [LoggingOps.writeUInt, LoggingOps.parseBitsBE_bitsetToString, Nat.mod_eq_of_lt hn]
  · have hne : (LoggingOps.charBytes (LoggingOps.writeUInt w n)).isEmpty = false := by
      cases hh : LoggingOps.charBytes (LoggingOps.writeUInt w n) with
      | nil => rw [hh, List.length_nil] at hlen; omega
      | cons a l => rfl
    have hnb : ¬ (LoggingOps.charBytes (LoggingOps.writeUInt w n)).length >
        LoggingOps.bufferSize := by
      rw [hlen]
      rcases hw with h | h | h | h <;> (subst h; decide)
    rw [LoggingOps.pushChunks, hne, if_neg Bool.false_ne_true, if_neg hnb]

/-- C7, witness at width 8 and value 165. -/
theorem C7_binary_roundtrip_witness :
    (LoggingOps.writeUInt 8 165).length = 8 ∧
    LoggingOps.parseBitsBE (LoggingOps.writeUInt 8 165) = 165 ∧
    LoggingOps.pushChunks (LoggingOps.charBytes (LoggingOps.writeUInt 8 165)) =
      [LoggingOps.charBytes (LoggingOps.writeUInt 8 165)] :=
  C7_binary_roundtrip 8 165 (Or.inl rfl) (by decide)

/-! ## Claim C8 -/

/-- C8 (confirmed).  Task::run on a task with no installed binding (default
constructed, never submitted, or moved from) returns an empty erased value
and leaves the task unchanged, raising no error; on a task with a binding it
invokes the packaged task exactly once, consumes the future and returns the
erased value. -/
theorem C8_run_no_binding (t : Task) :
    (t.binding = none → Task.run t = (ErasedValue.empty, t)) ∧
    (∀ v, t.binding = some v →
      Task.run t =
        (v, { t with invocations := t.invocations + 1, futureConsumed := true })) := by
  constructor
  · intro h
    simp [Task.run, h]
  · intro v h
    simp [Task.run, h]

/-- C8, witness: a never-submitted task and a task carrying the value 5. -/
theorem C8_run_no_binding_witness :
    Task.run { binding := none, invocations := 0, futureConsumed := false } =
      (ErasedValue.empty,
        { binding := none, invocations := 0, futureConsumed := false }) ∧
    Task.run
        { binding := some (ErasedValue.val 5), invocations := 0, futureConsumed := false } =
      (ErasedValue.val 5,
        { binding := some (ErasedValue.val 5), invocations := 1, futureConsumed := true }) :=
  ⟨(C8_run_no_binding _).1 rfl, (C8_run_no_binding _).2 (ErasedValue.val 5) rfl⟩

/-! ## Claim C9 -/

/-- C9 (confirmed).  Constructing a thread pool with pool size zero fails
through the assertion path of createThreads with no worker spawned; any
nonzero pool size spawns exactly that many workers. -/
theorem C9_construct_pool_size (k : Nat) :
    (ThreadPool.construct k = ThreadPool.CreateOutcome.assertionFailure 0 ↔ k = 0) ∧
    (k ≠ 0 → ThreadPool.construct k = ThreadPool.CreateOutcome.ok k) := by
  constructor
  · constructor
    · intro h
      by_contra hk
      rw [ThreadPool.construct, ThreadPool.createThreads, if_pos hk] at h
      simp at h
    · intro h
      subst h
      rfl
  · intro hk
    rw [ThreadPool.construct, ThreadPool.createThreads, if_pos hk]

/-- C9, witness at pool sizes 0 and 4. -/
theorem C9_construct_pool_size_witness :
    ThreadPool.construct 0 = ThreadPool.CreateOutcome.assertionFailure 0 ∧
    ThreadPool.construct 4 = ThreadPool.CreateOutcome.ok 4 :=
  ⟨(C9_construct_pool_size 0).1.mpr rfl, (C9_construct_pool_size 4).2 (by decide)⟩

/-! ## Claim C5 -/

/-- C5, counterexample.  The claim states that after reset(k) the outstanding
count is 0.  On a paused pool with three queued tasks and none running, the
waitForTaskCompletion exit condition holds (running count 0), reset(2)
completes, preserves the pause flag and spawns 2 workers, yet the outstanding
count is still 3, not 0: reset never touches the queue or m_taskCntTotal. -/
theorem C5_counterexample :
    ThreadPool.waitExit ThreadPool.pausedPool = true ∧
    (ThreadPool.reset ThreadPool.pausedPool 2).map ThreadPool.PoolState.workers = some 2 ∧
    (ThreadPool.reset ThreadPool.pausedPool 2).map ThreadPool.PoolState.pause = some true ∧
    (ThreadPool.reset ThreadPool.pausedPool 2).map ThreadPool.PoolState.taskCntTotal
      = some 3 ∧
    (ThreadPool.reset ThreadPool.pausedPool 2).map ThreadPool.PoolState.taskCntTotal
      ≠ some 0 := by
  decide

/-- C5, amended.  For every pool state satisfying the waitForTaskCompletion
exit condition and every k at least 1, reset(k) completes with exactly k
workers, the pool size k, the pause flag restored to its pre-reset value and
the running flag set; the outstanding count is unchanged, and it is 0
whenever the pool was not paused (under pause, queued tasks survive the
reset). -/
theorem C5_reset_amended (s : ThreadPool.PoolState) (k : Nat) (hk : 1 ≤ k)
    (hw : ThreadPool.waitExit s = true) :
    ∃ s', ThreadPool.reset s k = some s' ∧ s'.poolSize = k ∧ s'.workers = k ∧
      s'.pause = s.pause ∧ s'.taskRunning = true ∧
      s'.taskCntTotal = s.taskCntTotal ∧ s'.queued = s.queued ∧
      (s.pause = false → s'.taskCntTotal = 0) := by
  have hk0 : ¬ k = 0 := by omega
  refine ⟨{ s with poolSize := k, workers := k, taskRunning := true },
    by rw [ThreadPool.reset, if_neg hk0], rfl, rfl, rfl, rfl, rfl, rfl, ?_⟩
  intro hp
  rw [ThreadPool.waitExit, hp] at hw
  simpa using hw

/-- C5, witness on a quiescent unpaused pool reset to 2 workers. -/
theorem C5_reset_amended_witness :
    ∃ s', ThreadPool.reset ThreadPool.quietPool 2 = some s' ∧ s'.poolSize = 2 ∧
      s'.workers = 2 ∧ s'.pause = ThreadPool.quietPool.pause ∧ s'.taskRunning = true ∧
      s'.taskCntTotal = ThreadPool.quietPool.taskCntTotal ∧
      s'.queued = ThreadPool.quietPool.queued ∧
      (ThreadPool.quietPool.pause = false → s'.taskCntTotal = 0) :=
  C5_reset_amended ThreadPool.quietPool 2 (by decide) (by decide)

/-! ## Claim C4 -/

/-- C4, counterexample.  The claim states the rotation name carries the
timestamp in year-month-day order.  At the local time 11 October 2026,
12:34:56, a write whose size crosses the ceiling rotates the file to
log_11102026_123456.txt (day-month-year, the strftime format of
FileOps.cpp:492), which differs from the year-month-day name the claim
requires. -/
theorem C4_counterexample :
    FileOps.fullSink.activeSize + (List.replicate 30 7).length
        ≥ FileOps.logCfg.maxFileSize ∧
    (FileOps.writeDataTo FileOps.logCfg rotDate FileOps.fullSink
        (List.replicate 30 7)).1.rotated = ["log_11102026_123456.txt"] ∧
    FileOps.rotatedFileNameClaimYMD FileOps.logCfg rotDate = "log_20261011_123456.txt" ∧
    ("log_11102026_123456.txt" : String) ≠ "log_20261011_123456.txt" := by
  decide

/-- C4, amended.  For every write of a nonempty payload against an existing
active file whose flushed size S satisfies S + payload size at least
max_bytes, the file is rotated before the payload records are pushed: the
rotation list gains exactly the name stem, underscore, local timestamp in
day-month-year order (format day month year, underscore, hour minute
second), extension; a fresh empty active file replaces it and the payload is
pushed afterwards. -/
theorem C4_rotation_amended (cfg : FileOps.Config) (t : DateTime)
    (st : FileOps.SinkState) (data : List Nat)
    (hex : st.activeExists = true) (hne : data.isEmpty = false)
    (hth : st.activeSize + data.length ≥ cfg.maxFileSize) :
    (FileOps.writeDataTo cfg t st data).1.rotated
        = st.rotated ++ [FileOps.rotatedFileName cfg t] ∧
    (FileOps.writeDataTo cfg t st data).1.activeExists = true ∧
    (FileOps.writeDataTo cfg t st data).1.activeSize = 0 ∧
    (FileOps.writeDataTo cfg t st data).2 = LoggingOps.pushChunks data := by
  have hexf : ¬ st.activeExists = false := by rw [hex]; simp
  rw [FileOps.writeDataTo, hne]
  rw [if_neg Bool.false_ne_true, if_neg hexf, if_pos hth]
  exact ⟨rfl, rfl, rfl, rfl⟩

/-- C4, witness: the scenario of the counterexample read through the amended
statement. -/
theorem C4_rotation_amended_witness :
    (FileOps.writeDataTo FileOps.logCfg rotDate FileOps.fullSink
        (List.replicate 30 7)).1.rotated
      = FileOps.fullSink.rotated ++ [FileOps.rotatedFileName FileOps.logCfg rotDate] ∧
    (FileOps.writeDataTo FileOps.logCfg rotDate FileOps.fullSink
        (List.replicate 30 7)).1.activeExists = true ∧
    (FileOps.writeDataTo FileOps.logCfg rotDate FileOps.fullSink
        (List.replicate 30 7)).1.activeSize = 0 ∧
    (FileOps.writeDataTo FileOps.logCfg rotDate FileOps.fullSink
        (List.replicate 30 7)).2 = LoggingOps.pushChunks (List.replicate 30 7) :=
  C4_rotation_amended FileOps.logCfg rotDate FileOps.fullSink (List.replicate 30 7)
    (by decide) (by decide) (by decide)

/-! ## Task DAG lemmas -/

namespace TDAG

theorem DagInv_mono {T T' : Nat → Prop} (hT : ∀ j, T j → T' j) {s : DagState}
    (h : DagInv T s) : DagInv T' s := by
  obtain ⟨hc, hg, hd, hz⟩ := h
  refine ⟨?_, ?_, hd, ?_⟩
  · intro c hcur
    obtain ⟨h1, h2, h3⟩ := hc c hcur
    exact ⟨hT c h1, h2, h3⟩
  · intro k hk
    exact hT k (hg k hk)
  · intro k v hv hT'
    exact hz k v hv (fun hTk => hT' (hT k hTk))

theorem DagInv_addTask {T : Nat → Prop} {s : DagState} (h : DagInv T s) (id : Nat) :
    DagInv (fun j => T j ∨ j = id) (addTask id s) := by
  obtain ⟨hc, hg, hd, hz⟩ := h
  rw [addTask]
  by_cases hmem : (alistLookup id s.taskIdMap).isSome
  · rw [if_pos hmem]
    exact DagInv_mono (fun j hj => Or.inl hj) ⟨hc, hg, hd, hz⟩
  · rw [if_neg hmem]
    refine ⟨?_, ?_, ?_, ?_⟩
    · intro c hcur
      have hcid : c = id := by
        have : some id = some c := hcur
        injection this with h'
        exact h'.symm
      subst hcid
      refine ⟨Or.inr rfl, ?_, ?_⟩
      · rw [alistLookup_upsert, if_pos rfl]
        rfl
      · rw [alistLookup_upsert, if_pos rfl]
        rfl
    · intro k hk
      rw [alistLookup_upsert] at hk
      by_cases hik : id = k
      · exact Or.inr hik.symm
      · rw [if_neg hik] at hk
        exact Or.inl (hg k hk)
    · intro k vec hvec d hdv
      rw [alistLookup_upsert] at hvec
      by_cases hik : id = k
      · rw [if_pos hik] at hvec
        injection hvec with h'
        rw [← h'] at hdv
        cases hdv
      · rw [if_neg hik] at hvec
        exact alistLookup_isSome_upsert _ _ _ _ (hd k vec hvec d hdv)
    · intro k v hv hT'
      rw [alistLookup_upsert] at hv
      by_cases hik : id = k
      · exact absurd (Or.inr hik.symm) hT'
      · rw [if_neg hik] at hv
        exact hz k v hv (fun hTk => hT' (Or.inl hTk))

theorem addTask_preserves_isSome {s : DagState} (id j : Nat)
    (h : (alistLookup j s.taskIdMap).isSome) :
    (alistLookup j (addTask id s).taskIdMap).isSome := by
  rw [addTask]
  by_cases hmem : (alistLookup id s.taskIdMap).isSome
  · rw [if_pos hmem]
    exact h
  · rw [if_neg hmem]
    exact alistLookup_isSome_upsert _ _ _ _ h

theorem addDependency_preserves_isSome {s s' : DagState} {depId : Nat}
    (hrun : addDependency depId s = some s') (j : Nat)
    (h : (alistLookup j s.taskIdMap).isSome) :
    (alistLookup j s'.taskIdMap).isSome := by
  cases hcur : s.current with
  | none =>
    simp only [addDependency, hcur] at hrun
    cases hrun
  | some parent =>
    simp only [addDependency, hcur] at hrun
    cases hpm : alistLookup parent s.taskIdMap with
    | none =>
      simp only [hpm] at hrun
      injection hrun with h'
      subst h'
      exact h
    | some pv =>
      simp only [hpm] at hrun
      cases hpg : alistLookup parent s.taskGraph with
      | none =>
        simp only [hpg] at hrun
        cases hrun
      | some vec =>
        simp only [hpg] at hrun
        by_cases hdv : depId ∈ vec
        · rw [if_pos hdv] at hrun
          injection hrun with h'
          subst h'
          exact h
        · rw [if_neg hdv] at hrun
          injection hrun with h'
          subst h'
          exact alistLookup_isSome_adjust _ _ _ _ (alistLookup_isSome_upsert _ _ _ _ h)

theorem DagInv_addDependency {T : Nat → Prop} {s s' : DagState} (h : DagInv T s)
    (depId : Nat) (hrun : addDependency depId s = some s') :
    DagInv T s' ∧ (alistLookup depId s'.taskIdMap).isSome := by
  obtain ⟨hc, hg, hd, hz⟩ := h
  cases hcur : s.current with
  | none =>
    simp only [addDependency, hcur] at hrun
    cases hrun
  | some parent =>
    simp only [addDependency, hcur] at hrun
    obtain ⟨hTp, hpM, hpG⟩ := hc parent hcur
    obtain ⟨pv, hpv⟩ := Option.isSome_iff_exists.mp hpM
    obtain ⟨vec, hvec⟩ := Option.isSome_iff_exists.mp hpG
    simp only [hpv, hvec] at hrun
    by_cases hdv : depId ∈ vec
    · rw [if_pos hdv] at hrun
      injection hrun with h'
      subst h'
      exact ⟨⟨hc, hg, hd, hz⟩, hd parent vec hvec depId hdv⟩
    · rw [if_neg hdv] at hrun
      injection hrun with h'
      subst h'
      have hdepSome : (alistLookup depId
          (alistAdjust parent (fun d => d + 1)
            (alistUpsert depId 0 s.taskIdMap))).isSome := by
        refine alistLookup_isSome_adjust _ _ _ _ ?_
        rw [alistLookup_upsert, if_pos rfl]
        rfl
      refine ⟨⟨?_, ?_, ?_, ?_⟩, hdepSome⟩
      · intro c hcur'
        have hcp : c = parent := by
          have h2 : some parent = some c := hcur'
          injection h2 with h3
          exact h3.symm
        subst hcp
        refine ⟨hTp, ?_, ?_⟩
        · exact alistLookup_isSome_adjust _ _ _ _ (alistLookup_isSome_upsert _ _ _ _ hpM)
        · rw [alistLookup_upsert, if_pos rfl]
          rfl
      · intro k hk
        rw [alistLookup_upsert] at hk
        by_cases hpk : parent = k
        · exact hpk ▸ hTp
        · rw [if_neg hpk] at hk
          exact hg k hk
      · intro k vec' hvec' d hdvec
        rw [alistLookup_upsert] at hvec'
        by_cases hpk : parent = k
        · rw [if_pos hpk] at hvec'
          injection hvec' with h'
          rw [← h'] at hdvec
          rcases List.mem_append.mp hdvec with hin | hin
          · exact alistLookup_isSome_adjust _ _ _ _
              (alistLookup_isSome_upsert _ _ _ _ (hd parent vec hvec d hin))
          · have hddep : d = depId := by
              cases hin with
              | head => rfl
              | tail _ hh => cases hh
            subst hddep
            exact hdepSome
        · rw [if_neg hpk] at hvec'
          exact alistLookup_isSome_adjust _ _ _ _
            (alistLookup_isSome_upsert _ _ _ _ (hd k vec' hvec' d hdvec))
      · intro k v hv hTk
        have hpk : ¬ parent = k := fun h' => hTk (h' ▸ hTp)
        rw [alistLookup_adjust, if_neg hpk, alistLookup_upsert] at hv
        by_cases hdk : depId = k
        · rw [if_pos hdk] at hv
          injection hv with h'
          exact h'.symm
        · rw [if_neg hdk] at hv
          exact hz k v hv hTk

theorem runOps_inv :
    ∀ (ops : List DagOp) (T : Nat → Prop) (s s' : DagState),
      DagInv T s → runOps s ops = some s' →
      DagInv (fun j => T j ∨ DagOp.addTask j ∈ ops) s' ∧
      (∀ d, DagOp.addDep d ∈ ops → (alistLookup d s'.taskIdMap).isSome) ∧
      (∀ j, (alistLookup j s.taskIdMap).isSome → (alistLookup j s'.taskIdMap).isSome) := by
  intro ops
  induction ops with
  | nil =>
    intro T s s' hinv hrun
    rw [runOps] at hrun
    injection hrun with h
    subst h
    refine ⟨DagInv_mono (fun j hj => Or.inl hj) hinv, ?_, fun j h => h⟩
    intro d hd
    cases hd
  | cons op rest ih =>
    intro T s s' hinv hrun
    rw [runOps] at hrun
    cases op with
    | addTask id =>
      rw [runOp] at hrun
      have h1 := DagInv_addTask hinv id
      obtain ⟨hinv', hdep', hpres'⟩ := ih (fun j => T j ∨ j = id) (addTask id s) s' h1 hrun
      refine ⟨?_, ?_, ?_⟩
      · refine DagInv_mono ?_ hinv'
        intro j hj
        rcases hj with (hj | hj) | hj
        · exact Or.inl hj
        · subst hj
          exact Or.inr (List.mem_cons_self _ _)
        · exact Or.inr (List.mem_cons_of_mem _ hj)
      · intro d hd
        have hdr : DagOp.addDep d ∈ rest := by
          rcases List.mem_cons.mp hd with h | h
          · cases h
          · exact h
        exact hdep' d hdr
      · intro j hj
        exact hpres' j (addTask_preserves_isSome id j hj)
    | addDep d =>
      rw [runOp] at hrun
      cases had : addDependency d s with
      | none =>
        rw [had] at hrun
        cases hrun
      | some s₁ =>
        rw [had] at hrun
        obtain ⟨hinv₁, hdSome⟩ := DagInv_addDependency hinv d had
        obtain ⟨hinv', hdep', hpres'⟩ := ih T s₁ s' hinv₁ hrun
        refine ⟨?_, ?_, ?_⟩
        · refine DagInv_mono ?_ hinv'
          intro j hj
          rcases hj with hj | hj
          · exact Or.inl hj
          · exact Or.inr (List.mem_cons_of_mem _ hj)
        · intro e he
          rcases List.mem_cons.mp he with h | h
          · have hed : e = d := by injection h
            subst hed
            exact hpres' e hdSome
          · exact hdep' e h
        · intro j hj
          exact hpres' j (addDependency_preserves_isSome had j hj)

end TDAG

/-! ## Claim C6 -/

/-- The DAG reached from the empty DAG by addTask of identifier 1 followed by
addDependency of identifier 2: both identifiers known to m_taskIdMap, 2 on
the dependency list of 1, and no m_taskGraph entry for 2. -/
def dagTwo : TDAG.DagState :=
  { taskIdMap := [(1, 1), (2, 0)], taskGraph := [(1, [2])], current := some 1 }

/-- C10 (confirmed).  After any sequence of addTask and addDependency
operations starting from the empty DAG that runs without undefined
behaviour, every identifier never passed to addTask is absent from the
adjacency map m_taskGraph, any entry it has in m_taskIdMap carries in-degree
0, and if some addDependency received it then it is a key of m_taskIdMap. -/
theorem C10_dep_only_ids (ops : List TDAG.DagOp) (s : TDAG.DagState)
    (hrun : TDAG.runOps TDAG.emptyDag ops = some s) (id : Nat)
    (hnt : TDAG.DagOp.addTask id ∉ ops) :
    alistLookup id s.taskGraph = none ∧
    (∀ v, alistLookup id s.taskIdMap = some v → v = 0) ∧
    (TDAG.DagOp.addDep id ∈ ops → (alistLookup id s.taskIdMap).isSome = true) := by
  have hbase : TDAG.DagInv (fun _ => False) TDAG.emptyDag := by
    refine ⟨?_, ?_, ?_, ?_⟩
    · intro c hcur
      simp [TDAG.emptyDag] at hcur
    · intro k hk
      simp [TDAG.emptyDag, alistLookup] at hk
    · intro k vec hvec
      simp [TDAG.emptyDag, alistLookup] at hvec
    · intro k v hv
      simp [TDAG.emptyDag, alistLookup] at hv
  obtain ⟨hinv, hdep, _⟩ := TDAG.runOps_inv ops (fun _ => False) TDAG.emptyDag s hbase hrun
  obtain ⟨hc, hg, hd, hz⟩ := hinv
  have hnotT : ¬ (False ∨ TDAG.DagOp.addTask id ∈ ops) := by
    intro h
    rcases h with h | h
    · exact h
    · exact hnt h
  refine ⟨?_, ?_, hdep id⟩
  · cases hlook : alistLookup id s.taskGraph with
    | none => rfl
    | some vec =>
      exact absurd (hg id (by rw [hlook]; rfl)) hnotT
  · intro v hv
    exact hz id v hv hnotT

/-- C10, witness on the sequence addTask(1), addDependency(2). -/
theorem C10_dep_only_ids_witness :
    alistLookup 2 dagTwo.taskGraph = none ∧
    (∀ v, alistLookup 2 dagTwo.taskIdMap = some v → v = 0) ∧
    (TDAG.DagOp.addDep 2 ∈ [TDAG.DagOp.addTask 1, TDAG.DagOp.addDep 2] →
      (alistLookup 2 dagTwo.taskIdMap).isSome = true) :=
  C10_dep_only_ids [TDAG.DagOp.addTask 1, TDAG.DagOp.addDep 2] dagTwo
    (by decide) 2 (by decide)

end TPool
